import Mathlib

/-!
Verification of the remote-access layer of the graph database repository:
the vertex traversal scheduler (src/plugins/host/src/util.rs), the legacy
transactional client (src/bin/src/common/client_datastore.rs) and the
streaming client (src/proto/src/client.rs), shallowly embedded in Lean.
Machine integers are modelled as Nat; error payloads are abstracted to a
type parameter (instantiated with Nat in concrete runs); identifiers
(128-bit UUIDs) are modelled as Nat with their strict order.
-/

namespace Spec2Proof

/-! ## Graph value model -/

/-- A vertex `{id, type}`; the 128-bit id is modelled as a Nat (only its
total order matters to the scheduler), the validated type label as a Nat. -/
structure Vertex where
  id : Nat
  t : Nat
deriving DecidableEq, Repr

/-- Strict ordering of vertices by identifier, the order UUIDs are paginated in. -/
def idLt (a b : Vertex) : Prop := a.id < b.id

/-! ## Vertex traversal scheduler (src/plugins/host/src/util.rs)

The Rust `map` function paginates over all vertices with repeated
`RangeVertexQuery` calls, dispatches each page's vertices to a thread pool,
and aggregates failures in a shared `last_err : Arc<Mutex<Option<_>>>` slot.
We model one execution as a sequential trace in which every dispatched
mapper call runs to completion (and its failure, if any, is written to the
slot) before the next loop-head check — the pool is drained (`pool.join()`)
before the result is read, so every dispatched call's effect is applied
before the slot is consulted for the result. -/

/-- `DEFAULT_NUM_WORKERS` (util.rs line 7). -/
def DEFAULT_NUM_WORKERS : Nat := 8

/-- `DEFAULT_QUERY_LIMIT = u16::max_value() as u32` (util.rs line 8). -/
def DEFAULT_QUERY_LIMIT : Nat := 65535

/-- The `VertexMapper` trait (util.rs lines 10-21): worker count, query
limit and type filter with their default implementations, plus the
caller-supplied mapping function. -/
structure VertexMapper (E : Type) where
  num_workers : Nat := DEFAULT_NUM_WORKERS
  query_limit : Nat := DEFAULT_QUERY_LIMIT
  t_filter : Option Nat := none
  map : Vertex → Except E Unit

/-- `ThreadPool::new(max(mapper.num_workers(), 2))` (util.rs line 27). -/
def poolSize {E : Type} (m : VertexMapper E) : Nat := max m.num_workers 2

/-- `let query_limit = max(mapper.query_limit(), 1)` (util.rs line 28). -/
def effQueryLimit {E : Type} (m : VertexMapper E) : Nat := max m.query_limit 1

/-- Whether a vertex passes the optional type filter of a range query. -/
def matchesFilter (tf : Option Nat) (v : Vertex) : Bool :=
  match tf with
  | none => true
  | some t => v.t == t

/-- Whether a vertex lies strictly after the pagination cursor. -/
def cursorKeep (cursor : Option Nat) (v : Vertex) : Bool :=
  match cursor with
  | none => true
  | some s => decide (s < v.id)

/-- Modelled from the spec: the semantics of `indradb::RangeVertexQuery`
(the indradb core library is not under src/). Per the spec, a range query
returns up to `limit` vertices matching the optional type filter whose id is
strictly greater than the cursor (pagination "starting after the last-seen
id never revisit[s] or skip[s] an entity"), in increasing id order; the
static graph `g` is therefore taken sorted by id. -/
def rangeVertexQuery (g : List Vertex) (limit : Nat) (tf : Option Nat)
    (cursor : Option Nat) : List Vertex :=
  (((g.filter (matchesFilter tf)).filter (cursorKeep cursor)).take limit)

/-- The write to the shared failure slot, `*last_err.lock().unwrap() =
Some(err)` (util.rs lines 47 and 62): an unconditional overwrite of
whatever the slot held before. -/
def recordErr {E : Type} (_slot : Option E) (e : E) : Option E := some e

/-- The cursor advance of util.rs lines 53-55: the last vertex id of the
page when the page is nonempty, the unchanged cursor otherwise. -/
def pageCursor (cursor : Option Nat) (page : List Vertex) : Option Nat :=
  match page.getLast? with
  | some v => some v.id
  | none => cursor

/-- Events of one scheduler execution: a page fetch (range query) issued
with the given cursor, a mapper invocation on a dispatched vertex, and a
failure written to the shared slot. -/
inductive Ev (E : Type) where
  | fetch (cursor : Option Nat)
  | run (v : Vertex)
  | record (e : E)
deriving DecidableEq, Repr

/-- Whether an event is a page fetch. -/
def Ev.isFetch {E : Type} : Ev E → Bool
  | .fetch _ => true
  | _ => false

/-- Whether an event is a failure record. -/
def Ev.isRecordEv {E : Type} : Ev E → Bool
  | .record _ => true
  | _ => false

/-- The vertices submitted to the worker pool, in dispatch order. -/
def runsOf {E : Type} (tr : List (Ev E)) : List Vertex :=
  tr.filterMap fun ev =>
    match ev with
    | .run v => some v
    | _ => none

/-- The failures written to the shared slot, in write order. -/
def recordsOf {E : Type} (tr : List (Ev E)) : List E :=
  tr.filterMap fun ev =>
    match ev with
    | .record e => some e
    | _ => none

/-- The page fetches issued, in order. -/
def fetchesOf {E : Type} (tr : List (Ev E)) : List (Option Nat) :=
  tr.filterMap fun ev =>
    match ev with
    | .fetch c => some c
    | _ => none

/-- Dispatch of one page to the pool (util.rs lines 57-65), under the
sequential schedule: each worker runs `mapper.map(vertex)` and writes its
failure, if any, to the slot via `recordErr`; emits a `run` event per
invocation and a `record` event per written failure. -/
def runPageTr {E : Type} (m : VertexMapper E) : Option E → List Vertex → List (Ev E) × Option E
  | slot, [] => ([], slot)
  | slot, v :: rest =>
    match m.map v with
    | Except.ok _ =>
      let r := runPageTr m slot rest
      (Ev.run v :: r.1, r.2)
    | Except.error e =>
      let r := runPageTr m (recordErr slot e) rest
      (Ev.run v :: Ev.record e :: r.1, r.2)

/-- The scheduler loop (util.rs lines 33-70), fuel-indexed. Each iteration:
check the slot and stop if a failure is present (line 34); issue the range
query (`getV limit t_filter cursor`, line 44), recording its failure and
stopping on error (lines 46-49); compute whether the page is terminal
(line 52); advance the cursor to the page's last vertex id before dispatch
(lines 53-55); dispatch the page (lines 57-65); stop on a terminal page
(lines 67-69). Returns the event trace, the final slot and the final cursor. -/
def mapLoop {E : Type} (getV : Nat → Option Nat → Option Nat → Except E (List Vertex))
    (m : VertexMapper E) : Nat → Option Nat → Option E → List (Ev E) × Option E × Option Nat
  | 0, cursor, slot => ([], slot, cursor)
  | fuel + 1, cursor, slot =>
    if slot.isSome then ([], slot, cursor)
    else
      match getV (effQueryLimit m) m.t_filter cursor with
      | Except.error e => ([Ev.fetch cursor, Ev.record e], recordErr slot e, cursor)
      | Except.ok page =>
        let pr := runPageTr m slot page
        if page.length < effQueryLimit m then
          (Ev.fetch cursor :: pr.1, pr.2, pageCursor cursor page)
        else
          let r2 := mapLoop getV m fuel (pageCursor cursor page) pr.2
          (Ev.fetch cursor :: pr.1 ++ r2.1, r2.2.1, r2.2.2)

/-- A full scheduler run: the loop started with an unset cursor and an
empty slot (util.rs lines 30-31). -/
def mapRun {E : Type} (getV : Nat → Option Nat → Option Nat → Except E (List Vertex))
    (m : VertexMapper E) (fuel : Nat) : List (Ev E) × Option E × Option Nat :=
  mapLoop getV m fuel none none

/-- The value returned by `map` after the pool is drained (util.rs lines
72-79): the slot's failure if one was recorded, success otherwise. -/
def mapReturn {E : Type} (out : List (Ev E) × Option E × Option Nat) : Except E Unit :=
  match out.2.1 with
  | some e => Except.error e
  | none => Except.ok ()

/-- A transaction over a static graph whose range queries never fail. -/
def pureGetV {E : Type} (g : List Vertex) :
    Nat → Option Nat → Option Nat → Except E (List Vertex) :=
  fun limit tf cursor => Except.ok (rangeVertexQuery g limit tf cursor)

/-- A full scheduler run against a static graph; `g.length + 1` units of
fuel always suffice since every non-terminal page consumes at least one
vertex. -/
def mapGraph {E : Type} (m : VertexMapper E) (g : List Vertex) :
    List (Ev E) × Option E × Option Nat :=
  mapRun (pureGetV g) m (g.length + 1)

/-- The result of a full scheduler run against a static graph. -/
def mapGraphResult {E : Type} (m : VertexMapper E) (g : List Vertex) : Except E Unit :=
  mapReturn (mapGraph m g)

/-! ## Legacy transactional client (src/bin/src/common/client_datastore.rs)

`ClientTransaction::execute` (lines 44-73) sets up a fresh connection per
operation: up to 5 attempts, each attempt either failing to connect,
connecting but finding the readiness probe not ready, panicking on a probe
RPC failure (the `unwrap` on line 60), or succeeding; a one-second sleep
follows every non-successful, non-panicking attempt; exhausting the budget
panics (line 72). -/

/-- The environment-determined outcome of one connection attempt. -/
inductive Attempt where
  /-- `TcpStream::connect` failed (line 51). -/
  | connectFail
  /-- connected, but the readiness probe returned `ready = false` (line 62). -/
  | notReady
  /-- connected, but the probe RPC itself failed: the `unwrap` on line 60 panics. -/
  | probeRpcFail
  /-- connected and the probe reported ready: the operation runs (lines 63-65). -/
  | ready
deriving DecidableEq, Repr

/-- How a legacy-client operation's connection setup ends. -/
inductive ExecOutcome where
  /-- the operation ran on the (0-indexed) attempt `k`. -/
  | ran (k : Nat)
  /-- the process terminated with a panic. -/
  | fatal
deriving DecidableEq, Repr

/-- The retry loop of `ClientTransaction::execute` (lines 50-72), given the
remaining attempt budget and the current attempt index. Returns the
outcome, the number of attempts made and the number of one-second sleeps
performed. -/
def executeFrom (env : Nat → Attempt) : Nat → Nat → ExecOutcome × Nat × Nat
  | 0, _ => (ExecOutcome.fatal, 0, 0)
  | n + 1, i =>
    match env i with
    | Attempt.ready => (ExecOutcome.ran i, 1, 0)
    | Attempt.probeRpcFail => (ExecOutcome.fatal, 1, 0)
    | _ =>
      let r := executeFrom env n (i + 1)
      (r.1, r.2.1 + 1, r.2.2 + 1)

/-- `ClientTransaction::execute`'s connection setup: `for _ in 0..5` with a
panic after the loop (lines 50-72). -/
def execute (env : Nat → Attempt) : ExecOutcome × Nat × Nat := executeFrom env 5 0

/-- An attempt outcome that leads to the sleep-and-retry path (connect
failure, or a probe that reported not-ready). -/
def retryFail (a : Attempt) : Prop :=
  a = Attempt.connectFail ∨ a = Attempt.notReady

/-- `Uuid::from_bytes` of the uuid crate, used on line 97 of
client_datastore.rs: succeeds exactly when given 16 bytes. -/
def uuidFromBytes (bytes : List Nat) : Option (List Nat) :=
  if bytes.length = 16 then some bytes else none

/-- How the legacy client's handling of a response payload ends. -/
inductive LegacyOutcome (A : Type) where
  /-- the unmarshalled value returned to the caller. -/
  | ok (a : A)
  /-- a database error returned to the caller. -/
  | err (code : Nat)
  /-- process termination via a panicking `unwrap`. -/
  | panicked
deriving DecidableEq, Repr

/-- The legacy client's unmarshalling of a `create_vertex_from_type`
response payload (client_datastore.rs lines 95-98):
`Uuid::from_bytes(bytes).unwrap()` — a wrong-length identifier panics the
process instead of surfacing an error. -/
def legacyCreateVertexFromTypeParse (bytes : List Nat) : LegacyOutcome (List Nat) :=
  match uuidFromBytes bytes with
  | some u => LegacyOutcome.ok u
  | none => LegacyOutcome.panicked

/-! ## Streaming client (src/proto/src/client.rs) -/

/-- The closed error taxonomy `ClientError` (client.rs lines 18-28), with
the inner payloads abstracted to numeric codes. -/
inductive ClientError where
  | conversion (code : Nat)
  | grpc (code : Nat)
  | transport (code : Nat)
  | channelClosed
deriving DecidableEq, Repr

/-- `CHANNEL_CAPACITY` (client.rs line 15), the bound of the bulk-insert
producer/consumer channel created on line 206. -/
def CHANNEL_CAPACITY : Nat := 100

/-- Modelled from the spec: the Streaming Client's conversion of a
`create_vertex_from_type` response into a UUID (`res.into_inner().try_into()?`
on client.rs line 129; the `TryInto` implementation lives in the proto
model module, not under src/). Per the spec's error taxonomy, a
wrong-length identifier is a Conversion error surfaced to the caller. -/
def protoUuidTryInto (bytes : List Nat) : Except ClientError (List Nat) :=
  if bytes.length = 16 then Except.ok bytes else Except.error (ClientError.conversion 0)

/-- The bulk-insert producer task (client.rs lines 211-218): sends items in
order; on the first failed send it records the error — converted to
`ChannelClosed` by the `From<SendError>` implementation (lines 70-74) —
into the shared slot and returns. `accept` models how many sends the
channel accepts before it is closed. Returns the successfully sent items
and the recorded failure, if any. -/
def producerRun {A : Type} : Nat → List A → List A × Option ClientError
  | _, [] => ([], none)
  | 0, _ :: _ => ([], some ClientError.channelClosed)
  | a + 1, it :: rest =>
    let r := producerRun a rest
    (it :: r.1, r.2)

/-- `Client::bulk_insert` (client.rs lines 205-229): spawn the producer,
await the server's acknowledgment of the foreground streaming RPC
(`self.0.bulk_insert(...).await?`, line 221 — its failure propagates
immediately), then consult the producer's recorded failure (lines 223-228). -/
def bulkInsert {A : Type} (serverRes : Except ClientError Unit) (accept : Nat)
    (items : List A) : Except ClientError Unit :=
  let pr := producerRun accept items
  match serverRes with
  | Except.error e => Except.error e
  | Except.ok _ =>
    match pr.2 with
    | some e => Except.error e
    | none => Except.ok ()

/-- `Client::get`'s stream consumption (client.rs lines 149-157): pull
items until the stream is exhausted or the first error — either a stream
item carrying a gRPC error (the `res?`) or a failed conversion (the
`try_into()?`) — and materialize the outputs in emission order. Returns the
result and the number of stream items consumed. -/
def getConsume {A B : Type} (conv : A → Except ClientError B) :
    List (Except ClientError A) → Except ClientError (List B) × Nat
  | [] => (Except.ok [], 0)
  | item :: rest =>
    match item with
    | Except.error e => (Except.error e, 1)
    | Except.ok raw =>
      match conv raw with
      | Except.error e => (Except.error e, 1)
      | Except.ok v =>
        match getConsume conv rest with
        | (Except.ok vs, n) => (Except.ok (v :: vs), n + 1)
        | (Except.error e, n) => (Except.error e, n + 1)

/-- The outputs of a fully successful stream, in the server's emission order. -/
def streamOutputs {A B : Type} (conv : A → Except ClientError B)
    (stream : List (Except ClientError A)) : List B :=
  stream.filterMap fun it =>
    match it with
    | Except.ok r => (conv r).toOption
    | Except.error _ => none

/-- The error a single stream item produces when processed by `get`:
the stream error itself, or the conversion failure of its payload. -/
def itemErr {A B : Type} (conv : A → Except ClientError B)
    (it : Except ClientError A) : Option ClientError :=
  match it with
  | Except.error e => some e
  | Except.ok r =>
    match conv r with
    | Except.error e => some e
    | Except.ok _ => none

/-! ## Auxiliary definitions for the statements and concrete runs -/

/-- Folding the slot writes of a list of failures, in order: since each
write is an unconditional overwrite, this is the last failure if any,
the initial slot content otherwise. -/
def lastOr {E : Type} (s : Option E) (es : List E) : Option E :=
  es.foldl recordErr s

instance : DecidableRel idLt :=
  fun a b => inferInstanceAs (Decidable (a.id < b.id))

instance (a : Attempt) : Decidable (retryFail a) :=
  inferInstanceAs (Decidable (a = Attempt.connectFail ∨ a = Attempt.notReady))

/-- A three-vertex graph, sorted by id, for concrete pagination runs. -/
def paginationGraph : List Vertex := [⟨1, 0⟩, ⟨2, 0⟩, ⟨3, 0⟩]

/-- A mapper with page size 2 whose mapping function always succeeds. -/
def paginationMapper : VertexMapper Nat :=
  { query_limit := 2, map := fun _ => Except.ok () }

/-- A mapper whose mapping function fails on every vertex with that
vertex's id as the error. -/
def failingMapper : VertexMapper Nat :=
  { query_limit := 10, map := fun v => Except.error v.id }

/-- A two-vertex graph on which `failingMapper` records two failures. -/
def failingGraph : List Vertex := [⟨1, 0⟩, ⟨2, 0⟩]

/-- A mapper that fails exactly on vertex id 2, with error 7. -/
def failOn2Mapper : VertexMapper Nat :=
  { query_limit := 10,
    map := fun v => if v.id = 2 then Except.error 7 else Except.ok () }

/-- A mapper with a type filter that matches no vertex of type 3. -/
def filteredMapper : VertexMapper Nat :=
  { t_filter := some 5, map := fun _ => Except.ok () }

/-- A connection environment failing twice, then ready. -/
def envWitness : Nat → Attempt :=
  fun i => if i < 2 then Attempt.connectFail else Attempt.ready

/-- A mapper configuration with zero workers and zero query limit. -/
def zeroMapper : VertexMapper Nat :=
  { num_workers := 0, query_limit := 0, map := fun _ => Except.ok () }

/-- A per-item conversion failing exactly on payload 0. -/
def convWitness : Nat → Except ClientError Nat :=
  fun n => if n = 0 then Except.error (ClientError.conversion 1) else Except.ok (n + 100)

/-- A response stream whose second item is a gRPC error. -/
def streamWitness : List (Except ClientError Nat) :=
  [Except.ok 1, Except.error (ClientError.grpc 9), Except.ok 0]

/-! ## Helper lemmas -/

@[simp]
lemma runsOf_nil {E : Type} : runsOf ([] : List (Ev E)) = [] := rfl

@[simp]
lemma runsOf_cons_fetch {E : Type} (c : Option Nat) (tr : List (Ev E)) :
    runsOf (Ev.fetch c :: tr) = runsOf tr := rfl

@[simp]
lemma runsOf_cons_run {E : Type} (v : Vertex) (tr : List (Ev E)) :
    runsOf (Ev.run v :: tr) = v :: runsOf tr := rfl

@[simp]
lemma runsOf_cons_record {E : Type} (e : E) (tr : List (Ev E)) :
    runsOf (Ev.record e :: tr) = runsOf tr := rfl

@[simp]
lemma runsOf_append {E : Type} (t1 t2 : List (Ev E)) :
    runsOf (t1 ++ t2) = runsOf t1 ++ runsOf t2 :=
  List.filterMap_append t1 t2 _

@[simp]
lemma recordsOf_nil {E : Type} : recordsOf ([] : List (Ev E)) = [] := rfl

@[simp]
lemma recordsOf_cons_fetch {E : Type} (c : Option Nat) (tr : List (Ev E)) :
    recordsOf (Ev.fetch c :: tr) = recordsOf tr := rfl

@[simp]
lemma recordsOf_cons_run {E : Type} (v : Vertex) (tr : List (Ev E)) :
    recordsOf (Ev.run v :: tr) = recordsOf tr := rfl

@[simp]
lemma recordsOf_cons_record {E : Type} (e : E) (tr : List (Ev E)) :
    recordsOf (Ev.record e :: tr) = e :: recordsOf tr := rfl

@[simp]
lemma recordsOf_append {E : Type} (t1 t2 : List (Ev E)) :
    recordsOf (t1 ++ t2) = recordsOf t1 ++ recordsOf t2 :=
  List.filterMap_append t1 t2 _

lemma runsOf_map_run {E : Type} (l : List Vertex) :
    runsOf ((l.map (Ev.run (E := E)))) = l := by
  induction l with
  | nil => rfl
  | cons v t ih => simpa using ih

lemma recordsOf_map_run {E : Type} (l : List Vertex) :
    recordsOf ((l.map (Ev.run (E := E)))) = [] := by
  induction l with
  | nil => rfl
  | cons v t ih => simpa using ih

@[simp]
lemma lastOr_nil {E : Type} (s : Option E) : lastOr s [] = s := rfl

@[simp]
lemma lastOr_cons {E : Type} (s : Option E) (e : E) (es : List E) :
    lastOr s (e :: es) = lastOr (some e) es := rfl

lemma lastOr_append {E : Type} (s : Option E) (l1 l2 : List E) :
    lastOr s (l1 ++ l2) = lastOr (lastOr s l1) l2 := by
  simp [lastOr, List.foldl_append]

lemma lastOr_some_isSome {E : Type} :
    ∀ (es : List E) (e : E), (lastOr (some e) es).isSome = true
  | [], _ => rfl
  | a :: t, e => by
    rw [lastOr_cons]
    exact lastOr_some_isSome t a

lemma lastOr_some_eq_getLast? {E : Type} :
    ∀ (es : List E) (e : E), lastOr (some e) es = (e :: es).getLast?
  | [], e => rfl
  | a :: t, e => by
    rw [lastOr_cons, lastOr_some_eq_getLast? t a, List.getLast?_cons_cons]

lemma lastOr_none_eq_getLast? {E : Type} (es : List E) :
    lastOr (none : Option E) es = es.getLast? := by
  cases es with
  | nil => rfl
  | cons a t => rw [lastOr_cons, lastOr_some_eq_getLast? t a]

lemma runPageTr_slot {E : Type} (m : VertexMapper E) :
    ∀ (slot : Option E) (page : List Vertex),
      (runPageTr m slot page).2 = lastOr slot (recordsOf (runPageTr m slot page).1)
  | slot, [] => rfl
  | slot, v :: rest => by
    cases h : m.map v with
    | ok u =>
      simp only [runPageTr, h]
      rw [recordsOf_cons_run]
      exact runPageTr_slot m slot rest
    | error e =>
      simp only [runPageTr, h]
      rw [recordsOf_cons_run, recordsOf_cons_record, lastOr_cons]
      exact runPageTr_slot m (recordErr slot e) rest

lemma runPageTr_no_fetch {E : Type} (m : VertexMapper E) :
    ∀ (slot : Option E) (page : List Vertex),
      ∀ ev ∈ (runPageTr m slot page).1, Ev.isFetch ev = false
  | _, [], _, hev => absurd hev (List.not_mem_nil _)
  | slot, v :: rest, ev, hev => by
    cases h : m.map v with
    | ok u =>
      simp only [runPageTr, h] at hev
      rcases List.mem_cons.mp hev with rfl | hev'
      · rfl
      · exact runPageTr_no_fetch m slot rest ev hev'
    | error e =>
      simp only [runPageTr, h] at hev
      rcases List.mem_cons.mp hev with rfl | hev'
      · rfl
      · rcases List.mem_cons.mp hev' with rfl | hev''
        · rfl
        · exact runPageTr_no_fetch m (recordErr slot e) rest ev hev''

lemma runPageTr_ok {E : Type} (m : VertexMapper E)
    (hmap : ∀ v, m.map v = Except.ok ()) :
    ∀ (slot : Option E) (page : List Vertex),
      runPageTr m slot page = (page.map Ev.run, slot)
  | slot, [] => rfl
  | slot, v :: rest => by
    simp only [runPageTr, hmap v, runPageTr_ok m hmap slot rest, List.map_cons]

lemma runPageTr_fail_recorded {E : Type} (m : VertexMapper E) :
    ∀ (slot : Option E) (page : List Vertex) (v : Vertex) (e : E),
      Ev.run v ∈ (runPageTr m slot page).1 → m.map v = Except.error e →
      Ev.record e ∈ (runPageTr m slot page).1
  | _, [], _, _, hv, _ => absurd hv (List.not_mem_nil _)
  | slot, w :: rest, v, e, hv, he => by
    cases h : m.map w with
    | ok u =>
      simp only [runPageTr, h] at hv ⊢
      rcases List.mem_cons.mp hv with heq | hv'
      · cases Ev.run.inj heq
        rw [h] at he
        exact absurd he (by simp)
      · exact List.mem_cons_of_mem _ (runPageTr_fail_recorded m slot rest v e hv' he)
    | error e' =>
      simp only [runPageTr, h] at hv ⊢
      rcases List.mem_cons.mp hv with heq | hv'
      · cases Ev.run.inj heq
        rw [h] at he
        cases Except.error.inj he
        exact List.mem_cons_of_mem _ (List.mem_cons_self _ _)
      · rcases List.mem_cons.mp hv' with heq | hv''
        · exact absurd heq (by simp)
        · exact List.mem_cons_of_mem _ (List.mem_cons_of_mem _
            (runPageTr_fail_recorded m (recordErr slot e') rest v e hv'' he))

lemma mapLoop_zero {E : Type} (getV : Nat → Option Nat → Option Nat → Except E (List Vertex))
    (m : VertexMapper E) (c : Option Nat) (s : Option E) :
    mapLoop getV m 0 c s = ([], s, c) := rfl

lemma mapLoop_stuck {E : Type} (getV : Nat → Option Nat → Option Nat → Except E (List Vertex))
    (m : VertexMapper E) (fuel : Nat) (c : Option Nat) (e : E) :
    mapLoop getV m fuel c (some e) = ([], some e, c) := by
  cases fuel <;> rfl

lemma mapLoop_succ_err {E : Type} (getV : Nat → Option Nat → Option Nat → Except E (List Vertex))
    (m : VertexMapper E) (fuel : Nat) (c : Option Nat) (e : E)
    (h : getV (effQueryLimit m) m.t_filter c = Except.error e) :
    mapLoop getV m (fuel + 1) c none = ([Ev.fetch c, Ev.record e], some e, c) := by
  simp [mapLoop, h, recordErr]

lemma mapLoop_succ_ok {E : Type} (getV : Nat → Option Nat → Option Nat → Except E (List Vertex))
    (m : VertexMapper E) (fuel : Nat) (c : Option Nat) (page : List Vertex)
    (h : getV (effQueryLimit m) m.t_filter c = Except.ok page) :
    mapLoop getV m (fuel + 1) c none =
      if page.length < effQueryLimit m then
        (Ev.fetch c :: (runPageTr m none page).1, (runPageTr m none page).2,
          pageCursor c page)
      else
        (Ev.fetch c :: (runPageTr m none page).1 ++
            (mapLoop getV m fuel (pageCursor c page) (runPageTr m none page).2).1,
          (mapLoop getV m fuel (pageCursor c page) (runPageTr m none page).2).2.1,
          (mapLoop getV m fuel (pageCursor c page) (runPageTr m none page).2).2.2) := by
  simp [mapLoop, h]

lemma mapLoop_slot {E : Type} (getV : Nat → Option Nat → Option Nat → Except E (List Vertex))
    (m : VertexMapper E) :
    ∀ (fuel : Nat) (c : Option Nat) (s : Option E),
      (mapLoop getV m fuel c s).2.1 = lastOr s (recordsOf (mapLoop getV m fuel c s).1)
  | 0, c, s => rfl
  | fuel + 1, c, s => by
    cases s with
    | some e => rw [mapLoop_stuck]; rfl
    | none =>
      cases hg : getV (effQueryLimit m) m.t_filter c with
      | error e =>
        rw [mapLoop_succ_err getV m fuel c e hg]
        rfl
      | ok page =>
        rw [mapLoop_succ_ok getV m fuel c page hg]
        by_cases hl : page.length < effQueryLimit m
        · rw [if_pos hl]
          simpa using runPageTr_slot m none page
        · rw [if_neg hl]
          have h1 := runPageTr_slot m none page
          have h2 := mapLoop_slot getV m fuel (pageCursor c page) ((runPageTr m none page).2)
          simp only [recordsOf_cons_fetch, recordsOf_append, lastOr_append]
          rw [← h1]
          exact h2

lemma executeFrom_attempts_le (env : Nat → Attempt) :
    ∀ (n i : Nat), (executeFrom env n i).2.1 ≤ n
  | 0, _ => Nat.le_refl 0
  | n + 1, i => by
    cases h : env i with
    | ready => simp [executeFrom, h]
    | probeRpcFail => simp [executeFrom, h]
    | connectFail =>
      simp only [executeFrom, h]
      exact Nat.succ_le_succ (executeFrom_attempts_le env n (i + 1))
    | notReady =>
      simp only [executeFrom, h]
      exact Nat.succ_le_succ (executeFrom_attempts_le env n (i + 1))

lemma executeFrom_ready (env : Nat → Attempt) :
    ∀ (n k i : Nat), k < n → env (i + k) = Attempt.ready →
      (∀ j, j < k → retryFail (env (i + j))) →
      executeFrom env n i = (ExecOutcome.ran (i + k), k + 1, k)
  | 0, k, _, hk, _, _ => absurd hk (Nat.not_lt_zero k)
  | n + 1, 0, i, _, hr, _ => by
    rw [Nat.add_zero] at hr
    simp [executeFrom, hr]
  | n + 1, k + 1, i, hk, hr, hprev => by
    have h0 : retryFail (env i) := by
      have := hprev 0 (Nat.succ_pos k)
      rwa [Nat.add_zero] at this
    have ih := executeFrom_ready env n k (i + 1) (Nat.lt_of_succ_lt_succ hk)
      (by rw [show i + 1 + k = i + (k + 1) from by omega]; exact hr)
      (fun j hj => by
        rw [show i + 1 + j = i + (j + 1) from by omega]
        exact hprev (j + 1) (Nat.succ_lt_succ hj))
    have harith : i + 1 + k = i + (k + 1) := by omega
    rcases h0 with h | h <;>
      · simp only [executeFrom, h, ih, harith]

lemma executeFrom_exhaust (env : Nat → Attempt) :
    ∀ (n i : Nat), (∀ j, j < n → retryFail (env (i + j))) →
      executeFrom env n i = (ExecOutcome.fatal, n, n)
  | 0, _, _ => rfl
  | n + 1, i, h => by
    have h0 : retryFail (env i) := by
      have := h 0 (Nat.succ_pos n)
      rwa [Nat.add_zero] at this
    have ih := executeFrom_exhaust env n (i + 1) (fun j hj => by
      rw [show i + 1 + j = i + (j + 1) from by omega]
      exact h (j + 1) (Nat.succ_lt_succ hj))
    rcases h0 with h' | h' <;> simp only [executeFrom, h', ih]

/-! ## Claim theorems -/

/-- Claim C2: the Legacy Client's per-operation connection setup makes at
most 5 connection attempts with a one-second sleep between attempts; if
the connect succeeds and the readiness probe reports ready on attempt `k`
(0-indexed here, so attempt `k + 1` of at most 5), the operation runs on
that attempt with no further attempts (exactly `k + 1` attempts and `k`
sleeps); if all 5 attempts are exhausted with failed connects or not-ready
probes, the process panics (`ExecOutcome.fatal`) rather than returning an
error. -/
theorem legacy_retry_bound (env : Nat → Attempt) (k : Nat) :
    (execute env).2.1 ≤ 5 ∧
    (k < 5 → env k = Attempt.ready → (∀ j, j < k → retryFail (env j)) →
      execute env = (ExecOutcome.ran k, k + 1, k)) ∧
    ((∀ j, j < 5 → retryFail (env j)) →
      execute env = (ExecOutcome.fatal, 5, 5)) := by
  refine ⟨executeFrom_attempts_le env 5 0, ?_, ?_⟩
  · intro hk hr hprev
    have := executeFrom_ready env 5 k 0 hk (by simpa using hr)
      (fun j hj => by simpa using hprev j hj)
    simpa [execute] using this
  · intro h
    exact executeFrom_exhaust env 5 0 (fun j hj => by simpa using h j hj)

/-- Witness for C2: in an environment that fails to connect twice and is
ready on the third attempt, the operation runs on attempt index 2 after
exactly 3 attempts and 2 sleeps. -/
theorem legacy_retry_bound_witness :
    execute envWitness = (ExecOutcome.ran 2, 3, 2) :=
  (legacy_retry_bound envWitness 2).2.1 (by decide) (by decide) (by decide)

/-- Claim C3 counterexample: with a mapper failing on both vertices of a
single page (errors 1 then 2, in dispatch order), the second recorded
failure overwrites the first — `recordErr` is an unconditional assignment —
and `map` returns error 2, not the first-seen failure 1. -/
theorem first_failure_wins_cex :
    recordsOf (mapGraph failingMapper failingGraph).1 = [1, 2] ∧
    mapGraphResult failingMapper failingGraph = Except.error 2 ∧
    mapGraphResult failingMapper failingGraph ≠ Except.error 1 ∧
    recordErr (some 1) 2 = some 2 := by
  refine ⟨rfl, rfl, ?_, rfl⟩
  intro hcontra
  have h2 : mapGraphResult failingMapper failingGraph = Except.error 2 := rfl
  rw [h2] at hcontra
  simp at hcontra

/-- Claim C3 (amended): in the traversal scheduler's shared failure slot
the LAST recorded failure wins — each write (`recordErr`, the unconditional
assignment of util.rs lines 47 and 62) overwrites the slot's previous
content, so the slot ends as the most recently recorded failure and the
error returned by `map` is that last-seen failure (or success if none was
recorded). -/
theorem failure_slot_last_wins {E : Type}
    (getV : Nat → Option Nat → Option Nat → Except E (List Vertex))
    (m : VertexMapper E) (fuel : Nat) :
    (mapRun getV m fuel).2.1 = (recordsOf (mapRun getV m fuel).1).getLast? ∧
    mapReturn (mapRun getV m fuel) =
      (match (recordsOf (mapRun getV m fuel).1).getLast? with
       | some e => Except.error e
       | none => Except.ok ()) := by
  have h := mapLoop_slot getV m fuel none none
  rw [lastOr_none_eq_getLast?] at h
  have h' : (mapRun getV m fuel).2.1 = (recordsOf (mapRun getV m fuel).1).getLast? := h
  exact ⟨h', by rw [mapReturn, h']⟩

/-- Claim C8: the worker pool size is the configured value clamped below
at 2 (a configuration of at most 2, in particular 0 or 1, yields exactly 2
workers), and the page size of every range query is the configured query
limit clamped below at 1, with `DEFAULT_QUERY_LIMIT = 65535`. -/
theorem scheduler_clamps (m : VertexMapper Nat) :
    2 ≤ poolSize m ∧
    (m.num_workers ≤ 2 → poolSize m = 2) ∧
    (2 ≤ m.num_workers → poolSize m = m.num_workers) ∧
    1 ≤ effQueryLimit m ∧
    (1 ≤ m.query_limit → effQueryLimit m = m.query_limit) ∧
    (m.query_limit = 0 → effQueryLimit m = 1) ∧
    DEFAULT_QUERY_LIMIT = 65535 := by
  refine ⟨Nat.le_max_right _ _, ?_, ?_, Nat.le_max_right _ _, ?_, ?_, rfl⟩
  · intro h; exact Nat.max_eq_right h
  · intro h; exact Nat.max_eq_left h
  · intro h; exact Nat.max_eq_left h
  · intro h; rw [effQueryLimit, h]; exact Nat.max_eq_right (Nat.zero_le 1)

/-- Witness for C8: a configuration of 0 workers and query limit 0 yields
a pool of 2 workers and a page size of 1. -/
theorem scheduler_clamps_witness :
    poolSize zeroMapper = 2 ∧ effQueryLimit zeroMapper = 1 :=
  ⟨(scheduler_clamps zeroMapper).2.1 (by decide),
   (scheduler_clamps zeroMapper).2.2.2.2.2.1 rfl⟩

/-- Claim C10: on an empty graph, or with a type filter matching no
vertex, the scheduler's first range query returns an empty page, no work
is dispatched to the pool (no `run` event), the cursor is never advanced
from its unset state, and `map` returns success. -/
theorem empty_traversal (m : VertexMapper Nat) (g : List Vertex)
    (h : ∀ v ∈ g, matchesFilter m.t_filter v = false) :
    mapGraph m g = ([Ev.fetch none], none, none) ∧
    runsOf (mapGraph m g).1 = [] ∧
    mapGraphResult m g = Except.ok () := by
  have hfil : g.filter (matchesFilter m.t_filter) = [] :=
    List.filter_eq_nil_iff.mpr (fun a ha => by simp [h a ha])
  have hpos : 0 < effQueryLimit m :=
    Nat.lt_of_lt_of_le Nat.zero_lt_one (Nat.le_max_right _ _)
  have hq : rangeVertexQuery g (effQueryLimit m) m.t_filter none = [] := by
    rw [rangeVertexQuery, hfil]
    simp
  have hrun : mapGraph m g = ([Ev.fetch none], none, none) := by
    rw [mapGraph, mapRun]
    rw [mapLoop_succ_ok (pureGetV g) m g.length none [] (by rw [pureGetV, hq])]
    rw [if_pos (by simpa using hpos)]
    rfl
  refine ⟨hrun, by rw [hrun]; rfl, ?_⟩
  rw [mapGraphResult, hrun]
  rfl

/-- Witness for C10: a one-vertex graph of type 3 traversed with a type
filter for type 5 produces a single empty fetch and succeeds. -/
theorem empty_traversal_witness :
    mapGraph filteredMapper [⟨1, 3⟩] = ([Ev.fetch none], none, none) ∧
    runsOf (mapGraph filteredMapper [⟨1, 3⟩]).1 = [] ∧
    mapGraphResult filteredMapper [⟨1, 3⟩] = Except.ok () :=
  empty_traversal filteredMapper [⟨1, 3⟩] (by decide)

lemma producerRun_sent {A : Type} :
    ∀ (items : List A) (accept : Nat), (producerRun accept items).1 = items.take accept
  | [], a => by simp [producerRun]
  | _ :: _, 0 => rfl
  | it :: rest, a + 1 => by
    simp only [producerRun, List.take_succ_cons]
    rw [producerRun_sent rest a]

lemma producerRun_err {A : Type} :
    ∀ (items : List A) (accept : Nat),
      (producerRun accept items).2 =
        if items.length ≤ accept then none else some ClientError.channelClosed
  | [], a => by simp [producerRun]
  | _ :: _, 0 => by simp [producerRun]
  | it :: rest, a + 1 => by
    have ih := producerRun_err rest a
    simp only [producerRun, ih, List.length_cons]
    by_cases h : rest.length ≤ a
    · rw [if_pos h, if_pos (by omega)]
    · rw [if_neg h, if_neg (by omega)]

/-- Claim C5: the bulk-insert producer/consumer channel has capacity
exactly 100; the producer sends items in order until the channel rejects
one, at which point it records that first failure — the distinct
`ChannelClosed` error — and stops (the sent prefix is `items.take accept`);
when the channel closes before all items are sent and the server call
succeeds, the caller receives `ChannelClosed` rather than a silent success;
the foreground call awaits the server acknowledgment (`bulkInsert`'s
outcome is a function of the server result consulted first). -/
theorem bulk_insert_channel (items : List Nat) (accept : Nat) :
    CHANNEL_CAPACITY = 100 ∧
    (producerRun accept items).1 = items.take accept ∧
    ((producerRun accept items).2 =
      if items.length ≤ accept then none else some ClientError.channelClosed) ∧
    (accept < items.length →
      bulkInsert (Except.ok ()) accept items = Except.error ClientError.channelClosed) := by
  refine ⟨rfl, producerRun_sent items accept, producerRun_err items accept, ?_⟩
  intro h
  have he : (producerRun accept items).2 = some ClientError.channelClosed := by
    rw [producerRun_err items accept, if_neg (by omega)]
  simp [bulkInsert, he]

/-- Witness for C5: a three-item batch over a channel accepting two sends
surfaces `ChannelClosed` to the caller. -/
theorem bulk_insert_channel_witness :
    bulkInsert (Except.ok ()) 2 [10, 20, 30] = Except.error ClientError.channelClosed :=
  (bulk_insert_channel [10, 20, 30] 2).2.2.2 (by decide)

/-- Claim C9: if the foreground streaming RPC of `bulk_insert` fails, that
gRPC/transport error is returned and takes precedence over any recorded
producer failure (which does exist whenever the channel closed early); the
recorded producer error is consulted only when the server call succeeds. -/
theorem bulk_insert_server_error_precedence (g : ClientError) (accept : Nat)
    (items : List Nat) :
    bulkInsert (Except.error g) accept items = Except.error g ∧
    (accept < items.length →
      (producerRun accept items).2 = some ClientError.channelClosed) ∧
    bulkInsert (Except.ok ()) accept items =
      (if items.length ≤ accept then Except.ok ()
       else Except.error ClientError.channelClosed) := by
  refine ⟨rfl, ?_, ?_⟩
  · intro h
    rw [producerRun_err items accept, if_neg (by omega)]
  · by_cases h : items.length ≤ accept
    · have he : (producerRun accept items).2 = none := by
        rw [producerRun_err items accept, if_pos h]
      simp [bulkInsert, he, h]
    · have he : (producerRun accept items).2 = some ClientError.channelClosed := by
        rw [producerRun_err items accept, if_neg h]
      simp [bulkInsert, he, h]

/-- Witness for C9: with a channel accepting 2 of 3 items (so a producer
failure was recorded) and a failing server call, the gRPC error is
returned, not `ChannelClosed`. -/
theorem bulk_insert_server_error_precedence_witness :
    (producerRun 2 ([10, 20, 30] : List Nat)).2 = some ClientError.channelClosed ∧
    bulkInsert (Except.error (ClientError.grpc 3)) 2 ([10, 20, 30] : List Nat) =
      Except.error (ClientError.grpc 3) :=
  ⟨(bulk_insert_server_error_precedence (ClientError.grpc 3) 2 [10, 20, 30]).2.1 (by decide),
   (bulk_insert_server_error_precedence (ClientError.grpc 3) 2 [10, 20, 30]).1⟩

lemma getConsume_all_ok {A B : Type} (conv : A → Except ClientError B) :
    ∀ (stream : List (Except ClientError A)),
      (∀ it ∈ stream, itemErr conv it = none) →
      getConsume conv stream = (Except.ok (streamOutputs conv stream), stream.length)
  | [], _ => rfl
  | it :: rest, h => by
    have h0 : itemErr conv it = none := h it (List.mem_cons_self it rest)
    have hr := getConsume_all_ok conv rest (fun x hx => h x (List.mem_cons_of_mem it hx))
    cases it with
    | error e => simp [itemErr] at h0
    | ok raw =>
      cases hc : conv raw with
      | error e => simp [itemErr, hc] at h0
      | ok v =>
        simp [getConsume, hc, hr, streamOutputs, List.filterMap_cons, Except.toOption]

lemma getConsume_first_err {A B : Type} (conv : A → Except ClientError B)
    (e : ClientError) (bad : Except ClientError A) (post : List (Except ClientError A)) :
    ∀ (pre : List (Except ClientError A)),
      (∀ it ∈ pre, itemErr conv it = none) → itemErr conv bad = some e →
      getConsume conv (pre ++ bad :: post) = (Except.error e, pre.length + 1)
  | [], _, hbad => by
    cases bad with
    | error e' =>
      rw [itemErr] at hbad
      cases Option.some.inj hbad
      simp [getConsume]
    | ok raw =>
      cases hc : conv raw with
      | error e' =>
        rw [itemErr, hc] at hbad
        cases Option.some.inj hbad
        simp [getConsume, hc]
      | ok v => simp [itemErr, hc] at hbad
  | it :: pre', h, hbad => by
    have h0 : itemErr conv it = none := h it (List.mem_cons_self it pre')
    have ih := getConsume_first_err conv e bad post pre'
      (fun x hx => h x (List.mem_cons_of_mem it hx)) hbad
    cases it with
    | error e' => simp [itemErr] at h0
    | ok raw =>
      cases hc : conv raw with
      | error e' => simp [itemErr, hc] at h0
      | ok v => simp [getConsume, hc, ih]

/-- Claim C7: the Streaming Client's `get` consumes the response stream to
completion when every item arrives and converts successfully, returning
the output values as an ordered sequence preserving the server's emission
order; at the first stream or conversion error it returns that error
having consumed exactly the items up to and including the failing one —
no further stream items are consumed. -/
theorem streaming_get_order (conv : Nat → Except ClientError Nat)
    (stream pre post : List (Except ClientError Nat)) (bad : Except ClientError Nat)
    (e : ClientError) :
    ((∀ it ∈ stream, itemErr conv it = none) →
      getConsume conv stream = (Except.ok (streamOutputs conv stream), stream.length)) ∧
    (stream = pre ++ bad :: post → (∀ it ∈ pre, itemErr conv it = none) →
      itemErr conv bad = some e →
      getConsume conv stream = (Except.error e, pre.length + 1)) := by
  refine ⟨getConsume_all_ok conv stream, ?_⟩
  intro hs hpre hbad
  rw [hs]
  exact getConsume_first_err conv e bad post pre hpre hbad

/-- Witness for C7: a stream whose second item is a gRPC error is consumed
for exactly two items and returns that error; a fully successful stream is
materialized in order. -/
theorem streaming_get_order_witness :
    getConsume convWitness streamWitness = (Except.error (ClientError.grpc 9), 2) ∧
    getConsume convWitness [Except.ok 1, Except.ok 2] = (Except.ok [101, 102], 2) :=
  ⟨(streaming_get_order convWitness streamWitness [Except.ok 1] [Except.ok 0]
      (Except.error (ClientError.grpc 9)) (ClientError.grpc 9)).2 rfl (by decide) rfl,
   by
    have h := (streaming_get_order convWitness [Except.ok 1, Except.ok 2] [] []
      (Except.ok 0) ClientError.channelClosed).1 (by decide)
    rwa [show streamOutputs convWitness [Except.ok 1, Except.ok 2] = [101, 102] from rfl] at h⟩

/-- Claim C6 counterexample: the Legacy Client's `create_vertex_from_type`
unmarshals the response with `Uuid::from_bytes(bytes).unwrap()`
(client_datastore.rs line 97), so a wrong-length identifier (here 3 bytes)
terminates the process with a panic instead of surfacing a conversion or
database error to the caller. -/
theorem conversion_error_cex :
    legacyCreateVertexFromTypeParse [0, 0, 0] = LegacyOutcome.panicked ∧
    legacyCreateVertexFromTypeParse [0, 0, 0] ≠ LegacyOutcome.err 0 := by
  exact ⟨rfl, by decide⟩

/-- Claim C6 (amended): the Streaming Client surfaces a wrong-length
identifier in a `create_vertex_from_type` response as a Conversion error
to the caller, never retried; the Legacy Client, however, panics
(process termination) on the same malformed payload via its `unwrap`,
rather than returning an error. -/
theorem conversion_error_amended (bytes : List Nat) (h : bytes.length ≠ 16) :
    protoUuidTryInto bytes = Except.error (ClientError.conversion 0) ∧
    legacyCreateVertexFromTypeParse bytes = LegacyOutcome.panicked := by
  constructor
  · rw [protoUuidTryInto, if_neg h]
  · simp [legacyCreateVertexFromTypeParse, uuidFromBytes, h]

/-- Witness for C6 (amended): on a 3-byte identifier payload the streaming
client returns a Conversion error while the legacy client panics. -/
theorem conversion_error_amended_witness :
    protoUuidTryInto [0, 0, 0] = Except.error (ClientError.conversion 0) ∧
    legacyCreateVertexFromTypeParse [0, 0, 0] = LegacyOutcome.panicked :=
  conversion_error_amended [0, 0, 0] (by decide)

@[simp]
lemma fetchesOf_nil {E : Type} : fetchesOf ([] : List (Ev E)) = [] := rfl

@[simp]
lemma fetchesOf_cons_fetch {E : Type} (c : Option Nat) (tr : List (Ev E)) :
    fetchesOf (Ev.fetch c :: tr) = c :: fetchesOf tr := rfl

@[simp]
lemma fetchesOf_cons_run {E : Type} (v : Vertex) (tr : List (Ev E)) :
    fetchesOf (Ev.run v :: tr) = fetchesOf tr := rfl

@[simp]
lemma fetchesOf_cons_record {E : Type} (e : E) (tr : List (Ev E)) :
    fetchesOf (Ev.record e :: tr) = fetchesOf tr := rfl

@[simp]
lemma fetchesOf_append {E : Type} (t1 t2 : List (Ev E)) :
    fetchesOf (t1 ++ t2) = fetchesOf t1 ++ fetchesOf t2 :=
  List.filterMap_append t1 t2 _

lemma fetchesOf_map_run {E : Type} (l : List Vertex) :
    fetchesOf ((l.map (Ev.run (E := E)))) = [] := by
  induction l with
  | nil => rfl
  | cons v t ih => simpa using ih

lemma filter_matches_none (g : List Vertex) : g.filter (matchesFilter none) = g :=
  List.filter_eq_self.mpr (fun _ _ => rfl)

lemma cursorKeep_some_true {s : Nat} {v : Vertex} (h : s < v.id) :
    cursorKeep (some s) v = true := by
  simp [cursorKeep, h]

lemma cursorKeep_some_false {s : Nat} {v : Vertex} (h : ¬ s < v.id) :
    cursorKeep (some s) v = false := by
  simp [cursorKeep, h]

lemma sorted_mem_le_getLast? :
    ∀ (l : List Vertex), l.Pairwise idLt →
      ∀ x ∈ l, ∀ y, l.getLast? = some y → x.id ≤ y.id
  | [], _, x, hx, _, _ => absurd hx (List.not_mem_nil x)
  | [a], _, x, hx, y, hy => by
    rcases List.mem_singleton.mp hx with rfl
    rw [List.getLast?_singleton] at hy
    cases Option.some.inj hy
    exact Nat.le_refl _
  | a :: b :: t, hs, x, hx, y, hy => by
    rw [List.getLast?_cons_cons] at hy
    rcases List.mem_cons.mp hx with rfl | hx'
    · have hrel : ∀ z ∈ b :: t, idLt x z := (List.pairwise_cons.mp hs).1
      exact Nat.le_of_lt (hrel y (List.mem_of_mem_getLast? hy))
    · exact sorted_mem_le_getLast? (b :: t) (List.pairwise_cons.mp hs).2 x hx' y hy

lemma mapLoop_visits {E : Type} (m : VertexMapper E)
    (hmap : ∀ v, m.map v = Except.ok ())
    (hfilter : m.t_filter = none)
    (g : List Vertex) (hsorted : g.Pairwise idLt) :
    ∀ (fuel : Nat) (cursor : Option Nat) (pre rest : List Vertex),
      g = pre ++ rest →
      (∀ v ∈ pre, cursorKeep cursor v = false) →
      (∀ v ∈ rest, cursorKeep cursor v = true) →
      rest.length < fuel →
      runsOf (mapLoop (pureGetV g) m fuel cursor none).1 = rest ∧
      (mapLoop (pureGetV g) m fuel cursor none).2.1 = none ∧
      (fetchesOf (mapLoop (pureGetV g) m fuel cursor none).1).length =
        rest.length / effQueryLimit m + 1
  | 0, _, _, rest, _, _, _, hfuel => absurd hfuel (Nat.not_lt_zero rest.length)
  | fuel + 1, cursor, pre, rest, hsplit, hpre, hrest, hfuel => by
    have hL1 : 1 ≤ effQueryLimit m := Nat.le_max_right _ _
    have hq : rangeVertexQuery g (effQueryLimit m) m.t_filter cursor =
        rest.take (effQueryLimit m) := by
      rw [rangeVertexQuery, hfilter, filter_matches_none, hsplit, List.filter_append,
        List.filter_eq_nil_iff.mpr (fun a ha => by simp [hpre a ha]),
        List.filter_eq_self.mpr hrest, List.nil_append]
    have hg : pureGetV (E := E) g (effQueryLimit m) m.t_filter cursor =
        Except.ok (rest.take (effQueryLimit m)) := by
      rw [pureGetV, hq]
    rw [mapLoop_succ_ok (pureGetV g) m fuel cursor _ hg]
    by_cases hshort : rest.length < effQueryLimit m
    · have htake : rest.take (effQueryLimit m) = rest :=
        List.take_of_length_le (Nat.le_of_lt hshort)
      rw [htake, if_pos hshort, runPageTr_ok m hmap none rest]
      refine ⟨?_, rfl, ?_⟩
      · simp [runsOf_map_run]
      · simp [fetchesOf_map_run, Nat.div_eq_of_lt hshort]
    · have hlong : effQueryLimit m ≤ rest.length := Nat.le_of_not_lt hshort
      have hplen : (rest.take (effQueryLimit m)).length = effQueryLimit m := by
        rw [List.length_take]
        exact Nat.min_eq_left hlong
      have hne : rest.take (effQueryLimit m) ≠ [] := by
        intro hc
        rw [hc] at hplen
        simp at hplen
        omega
      obtain ⟨last, hlast⟩ : ∃ y, (rest.take (effQueryLimit m)).getLast? = some y := by
        cases hlq : (rest.take (effQueryLimit m)).getLast? with
        | none => exact absurd (List.getLast?_eq_none_iff.mp hlq) hne
        | some y => exact ⟨y, rfl⟩
      have hcursor2 : pageCursor cursor (rest.take (effQueryLimit m)) = some last.id := by
        rw [pageCursor, hlast]
      have hrest_pw : rest.Pairwise idLt := by
        rw [hsplit] at hsorted
        exact (List.pairwise_append.mp hsorted).2.1
      have hpage_pw : (rest.take (effQueryLimit m)).Pairwise idLt :=
        hrest_pw.sublist (List.take_sublist _ _)
      have hlast_mem_rest : last ∈ rest :=
        List.take_subset _ _ (List.mem_of_mem_getLast? hlast)
      have hsplit2 : rest = rest.take (effQueryLimit m) ++ rest.drop (effQueryLimit m) :=
        (List.take_append_drop _ _).symm
      have hcross : ∀ a ∈ rest.take (effQueryLimit m),
          ∀ b ∈ rest.drop (effQueryLimit m), idLt a b := by
        have := hrest_pw
        rw [hsplit2] at this
        exact (List.pairwise_append.mp this).2.2
      have hpre2 : ∀ v ∈ pre ++ rest.take (effQueryLimit m),
          cursorKeep (some last.id) v = false := by
        intro v hv
        rcases List.mem_append.mp hv with hv' | hv'
        · have hpr : ∀ a ∈ pre, ∀ b ∈ rest, idLt a b := by
            rw [hsplit] at hsorted
            exact (List.pairwise_append.mp hsorted).2.2
          exact cursorKeep_some_false (by
            have := hpr v hv' last hlast_mem_rest
            rw [idLt] at this
            omega)
        · exact cursorKeep_some_false (by
            have := sorted_mem_le_getLast? _ hpage_pw v hv' last hlast
            omega)
      have hrest2 : ∀ v ∈ rest.drop (effQueryLimit m),
          cursorKeep (some last.id) v = true := by
        intro v hv
        exact cursorKeep_some_true (by
          have := hcross last (List.mem_of_mem_getLast? hlast) v hv
          rw [idLt] at this
          omega)
      have hsplit' : g = (pre ++ rest.take (effQueryLimit m)) ++ rest.drop (effQueryLimit m) := by
        rw [hsplit, List.append_assoc, ← hsplit2]
      have hfuel' : (rest.drop (effQueryLimit m)).length < fuel := by
        rw [List.length_drop]
        omega
      have ih := mapLoop_visits m hmap hfilter g hsorted fuel (some last.id)
        (pre ++ rest.take (effQueryLimit m)) (rest.drop (effQueryLimit m))
        hsplit' hpre2 hrest2 hfuel'
      rw [if_neg (by omega), runPageTr_ok m hmap none _, hcursor2]
      refine ⟨?_, ?_, ?_⟩
      · simp only [runsOf_cons_fetch, runsOf_append, runsOf_map_run, ih.1]
        exact hsplit2.symm
      · exact ih.2.1
      · have hdiv : (rest.length - effQueryLimit m) / effQueryLimit m + 1 =
            rest.length / effQueryLimit m := by
          have h1 : rest.length - effQueryLimit m + effQueryLimit m = rest.length :=
            Nat.sub_add_cancel hlong
          have h2 := Nat.add_div_right (rest.length - effQueryLimit m)
            (Nat.lt_of_lt_of_le Nat.zero_lt_one hL1)
          rw [h1] at h2
          omega
        simp only [fetchesOf_cons_fetch, fetchesOf_append, fetchesOf_map_run,
          List.singleton_append, List.nil_append, List.length_cons,
          List.length_append, List.length_nil, ih.2.2, List.length_drop]
        omega

/-- Claim C1: over a static graph of N vertices sorted by id, with page
size P = the configured query limit, P ≥ 1 and P < N, no type filter and a
mapper that always succeeds, the scheduler's repeated range queries —
each starting after the last-seen vertex id (the cursor is advanced to the
last vertex id of each page before dispatch, `pageCursor`) — dispatch
every vertex exactly once in increasing id order (`runsOf ... = g`), the
slot stays empty and `map` succeeds, and the loop performs exactly
`N / P + 1` page fetches, terminating on the first page shorter than P. -/
theorem pagination_complete (g : List Vertex) (m : VertexMapper Nat)
    (hsorted : g.Pairwise idLt)
    (hmap : ∀ v, m.map v = Except.ok ())
    (hfilter : m.t_filter = none)
    (hP : 1 ≤ m.query_limit)
    (_hPN : m.query_limit < g.length) :
    runsOf (mapGraph m g).1 = g ∧
    (mapGraph m g).2.1 = none ∧
    mapGraphResult m g = Except.ok () ∧
    (fetchesOf (mapGraph m g).1).length = g.length / m.query_limit + 1 := by
  have hL : effQueryLimit m = m.query_limit := Nat.max_eq_left hP
  have key := mapLoop_visits m hmap hfilter g hsorted (g.length + 1) none [] g rfl
    (fun v hv => absurd hv (List.not_mem_nil v))
    (fun v _ => rfl)
    (Nat.lt_succ_self _)
  refine ⟨key.1, key.2.1, ?_, ?_⟩
  · rw [mapGraphResult, mapReturn, mapGraph, mapRun, key.2.1]
  · rw [mapGraph, mapRun, key.2.2, hL]

/-- Witness for C1: the three-vertex sorted graph traversed with page size
2 dispatches all three vertices in order and succeeds, in two fetches
(none-cursor page of 2, then a short page of 1). -/
theorem pagination_complete_witness :
    runsOf (mapGraph paginationMapper paginationGraph).1 = paginationGraph ∧
    mapGraphResult paginationMapper paginationGraph = Except.ok () :=
  have h := pagination_complete paginationGraph paginationMapper (by decide)
    (fun _ => rfl) rfl (by decide) (by decide)
  ⟨h.1, h.2.2.1⟩

lemma records_nil_of_lastOr_none {E : Type} (es : List E)
    (h : lastOr (none : Option E) es = none) : es = [] := by
  cases es with
  | nil => rfl
  | cons a t =>
    rw [lastOr_cons] at h
    have hs := lastOr_some_isSome t a
    rw [h] at hs
    simp at hs

lemma isRecordEv_false_of_recordsOf_nil {E : Type} (tr : List (Ev E))
    (h : recordsOf tr = []) : ∀ ev ∈ tr, Ev.isRecordEv ev = false := by
  intro ev hev
  have hnone := (List.filterMap_eq_nil_iff.mp h) ev hev
  cases ev with
  | fetch c => rfl
  | run v => rfl
  | record e => simp at hnone

lemma mapLoop_split {E : Type} (getV : Nat → Option Nat → Option Nat → Except E (List Vertex))
    (m : VertexMapper E) :
    ∀ (fuel : Nat) (c : Option Nat),
      ∃ t1 t2, (mapLoop getV m fuel c none).1 = t1 ++ t2 ∧
        (∀ ev ∈ t1, Ev.isRecordEv ev = false) ∧
        (∀ ev ∈ t2, Ev.isFetch ev = false)
  | 0, _ =>
    ⟨[], [], rfl, fun _ h => absurd h (List.not_mem_nil _),
      fun _ h => absurd h (List.not_mem_nil _)⟩
  | fuel + 1, c => by
    cases hg : getV (effQueryLimit m) m.t_filter c with
    | error e =>
      refine ⟨[Ev.fetch c], [Ev.record e], ?_, ?_, ?_⟩
      · rw [mapLoop_succ_err getV m fuel c e hg]
        rfl
      · intro ev hev; rcases List.mem_singleton.mp hev with rfl; rfl
      · intro ev hev; rcases List.mem_singleton.mp hev with rfl; rfl
    | ok page =>
      rw [mapLoop_succ_ok getV m fuel c page hg]
      by_cases hl : page.length < effQueryLimit m
      · rw [if_pos hl]
        refine ⟨[Ev.fetch c], (runPageTr m none page).1, by simp, ?_, ?_⟩
        · intro ev hev; rcases List.mem_singleton.mp hev with rfl; rfl
        · exact runPageTr_no_fetch m none page
      · rw [if_neg hl]
        cases hslot : (runPageTr m none page).2 with
        | some e =>
          rw [mapLoop_stuck, List.append_nil]
          refine ⟨[Ev.fetch c], (runPageTr m none page).1, by simp, ?_, ?_⟩
          · intro ev hev; rcases List.mem_singleton.mp hev with rfl; rfl
          · exact runPageTr_no_fetch m none page
        | none =>
          obtain ⟨r1, r2, heq, h1, h2⟩ := mapLoop_split getV m fuel (pageCursor c page)
          have hptr : recordsOf (runPageTr m none page).1 = [] := by
            have hs := runPageTr_slot m none page
            rw [hslot] at hs
            exact records_nil_of_lastOr_none _ hs.symm
          refine ⟨(Ev.fetch c :: (runPageTr m none page).1) ++ r1, r2, ?_, ?_, h2⟩
          · rw [heq, List.append_assoc]
          · intro ev hev
            rcases List.mem_append.mp hev with hev' | hev'
            · rcases List.mem_cons.mp hev' with rfl | hev''
              · rfl
              · exact isRecordEv_false_of_recordsOf_nil _ hptr ev hev''
            · exact h1 ev hev'

lemma mapLoop_fail_recorded {E : Type}
    (getV : Nat → Option Nat → Option Nat → Except E (List Vertex))
    (m : VertexMapper E) :
    ∀ (fuel : Nat) (c : Option Nat) (s : Option E) (v : Vertex) (e : E),
      Ev.run v ∈ (mapLoop getV m fuel c s).1 → m.map v = Except.error e →
      Ev.record e ∈ (mapLoop getV m fuel c s).1
  | 0, _, _, v, _ => fun hv _ => absurd hv (List.not_mem_nil _)
  | fuel + 1, c, s, v, e => by
    intro hv he
    cases s with
    | some e' =>
      rw [mapLoop_stuck] at hv
      exact absurd hv (List.not_mem_nil _)
    | none =>
      cases hg : getV (effQueryLimit m) m.t_filter c with
      | error e' =>
        rw [mapLoop_succ_err getV m fuel c e' hg] at hv
        rcases List.mem_cons.mp hv with h' | h'
        · exact absurd h' (by simp)
        · rcases List.mem_singleton.mp h' with h''
          exact absurd h'' (by simp)
      | ok page =>
        rw [mapLoop_succ_ok getV m fuel c page hg] at hv ⊢
        by_cases hl : page.length < effQueryLimit m
        · rw [if_pos hl] at hv ⊢
          rcases List.mem_cons.mp hv with h' | h'
          · exact absurd h' (by simp)
          · exact List.mem_cons_of_mem _ (runPageTr_fail_recorded m none page v e h' he)
        · rw [if_neg hl] at hv ⊢
          rcases List.mem_append.mp hv with h' | h'
          · rcases List.mem_cons.mp h' with h'' | h''
            · exact absurd h'' (by simp)
            · exact List.mem_append_left _
                (List.mem_cons_of_mem _ (runPageTr_fail_recorded m none page v e h'' he))
          · exact List.mem_append_right _
              (mapLoop_fail_recorded getV m fuel (pageCursor c page)
                ((runPageTr m none page).2) v e h' he)

lemma mapLoop_record_isSome {E : Type}
    (getV : Nat → Option Nat → Option Nat → Except E (List Vertex))
    (m : VertexMapper E) (fuel : Nat) (c : Option Nat) (e : E)
    (h : Ev.record e ∈ (mapLoop getV m fuel c none).1) :
    ((mapLoop getV m fuel c none).2.1).isSome = true := by
  have hs := mapLoop_slot getV m fuel c none
  have hmem : e ∈ recordsOf (mapLoop getV m fuel c none).1 :=
    List.mem_filterMap.mpr ⟨Ev.record e, h, rfl⟩
  cases hr : recordsOf (mapLoop getV m fuel c none).1 with
  | nil =>
    rw [hr] at hmem
    exact absurd hmem (List.not_mem_nil e)
  | cons a t =>
    rw [hs, hr, lastOr_cons]
    exact lastOr_some_isSome t a

/-- Claim C4: in the scheduler's execution trace (under the drained-pool
schedule, where each dispatched mapper call completes and its failure is
written before the next loop-head check), the trace splits into a prefix
with no recorded failure followed by a suffix with no page fetch — so no
range query begins after a failure has been recorded in the shared slot;
every dispatched mapper invocation that fails gets its failure recorded
(already-dispatched calls run to completion before `pool.join()`), a
recorded failure leaves the slot occupied, and `map` returns the slot's
captured failure. -/
theorem fault_short_circuit {E : Type}
    (getV : Nat → Option Nat → Option Nat → Except E (List Vertex))
    (m : VertexMapper E) (fuel : Nat) :
    (∃ t1 t2, (mapRun getV m fuel).1 = t1 ++ t2 ∧
      (∀ ev ∈ t1, Ev.isRecordEv ev = false) ∧
      (∀ ev ∈ t2, Ev.isFetch ev = false)) ∧
    (∀ v e, Ev.run v ∈ (mapRun getV m fuel).1 → m.map v = Except.error e →
      Ev.record e ∈ (mapRun getV m fuel).1) ∧
    (∀ e, Ev.record e ∈ (mapRun getV m fuel).1 →
      ((mapRun getV m fuel).2.1).isSome = true) ∧
    (∀ e, (mapRun getV m fuel).2.1 = some e →
      mapReturn (mapRun getV m fuel) = Except.error e) := by
  refine ⟨mapLoop_split getV m fuel none, ?_, ?_, ?_⟩
  · exact fun v e hv he => mapLoop_fail_recorded getV m fuel none none v e hv he
  · exact fun e he => mapLoop_record_isSome getV m fuel none e he
  · intro e he
    rw [mapReturn, he]

/-- Witness for C4: with a mapper failing on vertex 2 with error 7 over a
two-vertex graph, the failure is recorded in the trace, the slot ends
occupied and `map` returns error 7. -/
theorem fault_short_circuit_witness :
    Ev.record 7 ∈ (mapRun (pureGetV failingGraph) failOn2Mapper 3).1 ∧
    ((mapRun (pureGetV failingGraph) failOn2Mapper 3).2.1).isSome = true ∧
    mapReturn (mapRun (pureGetV failingGraph) failOn2Mapper 3) = Except.error 7 :=
  have h := fault_short_circuit (pureGetV failingGraph) failOn2Mapper 3
  have hrec : Ev.record 7 ∈ (mapRun (pureGetV failingGraph) failOn2Mapper 3).1 :=
    h.2.1 ⟨2, 0⟩ 7 (by decide) rfl
  ⟨hrec, h.2.2.1 7 hrec, h.2.2.2 7 rfl⟩

end Spec2Proof
